import Mathlib

/-!
Shallow embedding of the ModernTTS multi-voice generation pipeline
(`src/audio_manager.py`, `src/validation.py`, `src/config.py`).

Modelling conventions:
* Python strings are Lean `String`s; most character work is done on `String.data`.
* Python's `\w` and `\s` regex classes are modelled over the characters that
  actually occur in the repository's tags and catalog (ASCII letters, digits,
  underscore, and the usual whitespace); Python's `str.strip` is `pyStrip`.
* The remote backend is an oracle: each `generate_content` call is given an
  outcome (`CallResult`) — an exception, a response without candidates/parts,
  a response whose inline payload is Python `None`, or audio bytes.
* A worker's observable behaviour is its ordered trace of `Event`s: issued
  network calls, `progress` emissions, `error` emissions and the `finished`
  payload.  Logging calls are unobservable and are not modelled.
* Human-readable validation sub-messages and the WAV container header written
  by `AudioSegment.export` are abstracted: the `finished` payload is the
  concatenation of the per-segment PCM bytes, in order.
-/

namespace ModernTTS

/-- ASCII model of Python's regex `\w` class (letter, digit or underscore). -/
def isWordChar (c : Char) : Bool := c.isAlpha || c.isDigit || c == '_'

/-- Characters admitted by the API-key regex `^[A-Za-z0-9_-]+$`. -/
def isApiKeyChar (c : Char) : Bool := c.isAlpha || c.isDigit || c == '_' || c == '-'

/-- Python's `str.strip()`: remove leading and trailing whitespace. -/
def pyStrip (l : List Char) : List Char :=
  ((l.dropWhile Char.isWhitespace).reverse.dropWhile Char.isWhitespace).reverse

/-- `str.strip()` on `String`s. -/
def pyStripS (s : String) : String := String.mk (pyStrip s.data)

/-- Remove `p` as a literal leading pattern of `s`, if present. -/
def dropPre : List Char → List Char → Option (List Char)
  | [], s => some s
  | _ :: _, [] => none
  | a :: p, b :: s => if a == b then dropPre p s else none

/-- Split `s` at the first (leftmost) literal occurrence of `pat`:
returns the text before the occurrence and the text after it. -/
def splitFirst (pat : List Char) : List Char → Option (List Char × List Char)
  | [] => (dropPre pat []).map fun r => (([] : List Char), r)
  | c :: rest =>
    match dropPre pat (c :: rest) with
    | some r => some ([], r)
    | none => (splitFirst pat rest).map fun q => (c :: q.1, q.2)

/-- Literal substring test (Python's `in` on strings). -/
def containsSub (pat s : List Char) : Bool := (splitFirst pat s).isSome

namespace AppConfig

/-- `AppConfig.VOICES` from `src/config.py`. -/
def VOICES : List String :=
  ["Zephyr", "Puck", "Charon", "Kore", "Fenrir", "Leda", "Orus", "Aoede",
   "Callirrhoe", "Autonoe", "Enceladus", "Iapetus", "Umbriel", "Algieba",
   "Despina", "Erinome", "Algenib", "Rasalgethi", "Laomedeia", "Achernar",
   "Alnilam", "Schedar", "Gacrux", "Pulcherrima", "Achird", "Zubenelgenubi",
   "Vindemiatrix", "Sadachbia", "Sadaltager", "Sulafat"]

/-- `AppConfig.MIN_API_KEY_LENGTH` from `src/config.py`. -/
def MIN_API_KEY_LENGTH : Nat := 30

/-- `AppConfig.MAX_TEXT_LENGTH` from `src/config.py`. -/
def MAX_TEXT_LENGTH : Nat := 5000

/-- `AppConfig.DEFAULT_VOICE_DELIMITER` from `src/config.py`. -/
def DEFAULT_VOICE_DELIMITER : String := "---"

end AppConfig

namespace Validator

/-- `Validator.validate_voice` (`src/validation.py`): the name must be non-empty
and listed in the voice catalog.  Only the `is_valid` flag of the returned
`ValidationResult` is modelled. -/
def validate_voice (voice_name : String) : Bool :=
  if voice_name == "" then false
  else AppConfig.VOICES.contains voice_name

/-- `Validator.validate_api_key` (`src/validation.py`): non-empty, then the
whitespace-stripped key must reach the length floor, start with `AIza`,
and consist only of letters, digits, hyphen and underscore. -/
def validate_api_key (api_key : String) : Bool :=
  if api_key == "" then false
  else
    let ks := pyStrip api_key.data
    if ks.length < AppConfig.MIN_API_KEY_LENGTH then false
    else if (dropPre "AIza".data ks).isNone then false
    else if !(ks.all isApiKeyChar) then false
    else true

/-- The apostrophe character admitted by the text regex. -/
def quoteChar : Char := Char.ofNat 39

/-- Characters admitted by the text regex
`[^/\w\s\.,!?;:\-\(\)\"\'«»\n\r\[\]]` (a character is rejected when it is
outside this allowed set). -/
def allowedTextChar (c : Char) : Bool :=
  c == '/' || isWordChar c || c.isWhitespace ||
    ['.', ',', '!', '?', ';', ':', '-', '(', ')', '"', quoteChar,
     '«', '»', '[', ']'].contains c

/-- `Validator.validate_text` (`src/validation.py`): non-empty after stripping,
within the length cap (measured on the stripped text), and free of characters
outside the allowed class (searched over the whole text). -/
def validate_text (text : String) : Bool :=
  if pyStrip text.data == [] then false
  else if AppConfig.MAX_TEXT_LENGTH < (pyStrip text.data).length then false
  else if text.data.any (fun c => !(allowedTextChar c)) then false
  else true

end Validator

namespace TextParser

/-- The literal opening marker of a voice tag. -/
def tagOpen : List Char := "[voice:".data

/-- The literal closing marker of a voice tag. -/
def tagClose : List Char := "[/voice]".data

/-- `TextParser.has_voice_tags` (`src/audio_manager.py`): a raw substring
test for the opening marker only. -/
def has_voice_tags (text : String) : Bool := containsSub tagOpen text.data

/-- One attempt of the regex `\[voice:(\w+)\](.*?)\[/voice\]` anchored at the
start of `s`: the opening marker, a non-empty run of word characters, `]`,
then the shortest span (newlines included, per `re.DOTALL`) up to the first
closing marker.  Returns the voice name, the inner text and the remainder. -/
def matchTagAt (s : List Char) : Option (List Char × List Char × List Char) :=
  match dropPre tagOpen s with
  | none => none
  | some r1 =>
    let nm := r1.takeWhile isWordChar
    match r1.dropWhile isWordChar with
    | ']' :: r3 =>
      if nm.isEmpty then none
      else
        match splitFirst tagClose r3 with
        | none => none
        | some (inner, r4) => some (nm, inner, r4)
    | _ => none

/-- The leftmost regex match in `s`, as found by `re.finditer`: the text
before the match, the voice name, the inner text, and the remainder after
the match. -/
def findTag : List Char → Option (List Char × List Char × List Char × List Char)
  | [] => none
  | c :: rest =>
    match matchTagAt (c :: rest) with
    | some (nm, inner, r4) => some ([], nm, inner, r4)
    | none => (findTag rest).map fun q => (c :: q.1, q.2.1, q.2.2.1, q.2.2.2)

/-- Whether `s` contains a complete voice tag (a full regex match somewhere). -/
def hasCompleteTag : List Char → Bool
  | [] => false
  | c :: rest => (matchTagAt (c :: rest)).isSome || hasCompleteTag rest

/-- The voice emitted for a tag: the tag's name when it validates against the
catalog, otherwise (after a logged warning, not modelled) the default voice. -/
def chooseVoice (default_voice nm : String) : String :=
  if Validator.validate_voice nm then nm else default_voice

/-- The tag-mode scan of `TextParser.parse`, fuelled so that it computes by
kernel reduction.  Each step emits the text before the match (stripped, and
only when non-empty, mirroring `start > last_end`), then the tag's segment,
and continues after the match; with no further match the remaining text is
emitted (stripped, only when non-empty, mirroring `last_end < len(text)`).
One unit of fuel is spent per match, and each match consumes at least 16
characters, so `s.length` fuel is never exhausted. -/
def tagScanF (default_voice : String) : Nat → List Char → List (String × String)
  | 0, s => if s.isEmpty then [] else [(default_voice, String.mk (pyStrip s))]
  | fuel + 1, s =>
    match findTag s with
    | none => if s.isEmpty then [] else [(default_voice, String.mk (pyStrip s))]
    | some (pre, nm, inner, r4) =>
      (if pre.isEmpty then [] else [(default_voice, String.mk (pyStrip pre))]) ++
        (chooseVoice default_voice (String.mk nm), String.mk (pyStrip inner)) ::
          tagScanF default_voice fuel r4

/-- The tag-mode branch of `TextParser.parse`. -/
def tagScan (default_voice : String) (s : List Char) : List (String × String) :=
  tagScanF default_voice s.length s

/-- Python's `str.split(sep)` for a non-empty separator, fuelled so that it
computes by kernel reduction (`parse` only calls it with a non-empty
separator, and each split consumes at least one character). -/
def splitOnSepF (sep : List Char) : Nat → List Char → List (List Char)
  | 0, s => [s]
  | fuel + 1, s =>
    match splitFirst sep s with
    | some (b, a) => b :: splitOnSepF sep fuel a
    | none => [s]

/-- Python's `text.split(delimiter_string)`. -/
def splitOnSep (sep s : List Char) : List (List Char) := splitOnSepF sep s.length s

/-- The delimiter-mode voice assignment of `TextParser.parse`: each part is
stripped, empty parts are skipped, and the voice index advances (cycling
through the sequence modulo its length) only for the parts that are kept. -/
def delimAssign (seq : List String) : Nat → List (List Char) → List (String × String)
  | _, [] => []
  | i, p :: ps =>
    let sp := pyStrip p
    if sp.isEmpty then delimAssign seq i ps
    else (seq.getD (i % seq.length) "", String.mk sp) :: delimAssign seq (i + 1) ps

/-- `TextParser.parse` (`src/audio_manager.py`): tag mode when the opening
marker occurs anywhere; otherwise delimiter mode when enabled with a
non-empty delimiter (an empty voice sequence falls back to the default
voice); otherwise the whole stripped text as one segment.  Segments with
empty text are filtered out at the end. -/
def parse (text default_voice : String) (delimiter_enabled : Bool)
    (delimiter_string : String) (delimiter_voice_sequence : List String) :
    List (String × String) :=
  let segments :=
    if has_voice_tags text then
      tagScan default_voice text.data
    else if delimiter_enabled && !(delimiter_string == "") then
      let seq := if delimiter_voice_sequence.isEmpty then [default_voice]
                 else delimiter_voice_sequence
      delimAssign seq 0 (splitOnSep delimiter_string.data text.data)
    else
      [(default_voice, pyStripS text)]
  segments.filter fun p => !(p.2 == "")

end TextParser

/-- Outcome of one `client.models.generate_content` call, as decided by the
remote backend: an exception raised by the call, or a response.  A response
carries whether `response.candidates` and `candidates[0].content.parts` are
present, and the inline audio payload (`none` models Python `None`). -/
inductive CallResult
  | raises (msg : String)
  | response (hasParts : Bool) (payload : Option (List Nat))
deriving DecidableEq

/-- Observable behaviour of a worker: network calls issued, and the
`progress`, `error` and `finished` signal emissions, in order. -/
inductive Event
  | netCall (voice text : String)
  | netCallMulti (prompt : String)
  | progress (msg : String)
  | error (msg : String)
  | finished (pcm : List Nat)
deriving DecidableEq

/-- The network calls contained in a trace, in order. -/
def callsOf : List Event → List (String × String)
  | [] => []
  | Event.netCall v t :: rest => (v, t) :: callsOf rest
  | _ :: rest => callsOf rest

/-- Whether a call outcome is a fully successful response with a payload
that is not Python `None`. -/
def okCall : CallResult → Bool
  | CallResult.response true (some _) => true
  | _ => false

/-- The audio bytes delivered by a successful call (`[]` otherwise). -/
def payloadOf : CallResult → List Nat
  | CallResult.response true (some bs) => bs
  | _ => []

/-- Prefix of every error emitted by `_generate_sequential`'s handler. -/
def seqErrPre : String := "Ошибка при генерации речи из нескольких сегментов: "

/-- The `ValueError` text raised for an empty response in the sequential
loop, naming the 1-based segment number. -/
def emptyRespMsg (n : Nat) : String := "Пустой ответ от API для сегмента " ++ toString n

/-- The progress text emitted before each sequential segment call. -/
def seqProgressMsg (n total : Nat) (voice : String) : String :=
  "Генерация сегмента " ++ toString n ++ "/" ++ toString total ++
    " (голос: " ++ voice ++ ")..."

/-- Modelled stand-in for the interpreter's `TypeError` text when
`BytesIO(None)` is evaluated in the sequential loop. -/
def noneBytesMsg : String := "a bytes-like object is required, not NoneType"

namespace MultiVoiceTTSWorker

/-- `MultiVoiceTTSWorker._can_use_native_multispeaker`
(`src/audio_manager.py`): the number of distinct segment voices is above 1
and at most 2. -/
def can_use_native_multispeaker (segments : List (String × String)) : Bool :=
  let n := ((segments.map Prod.fst).dedup).length
  decide (1 < n) && decide (n ≤ 2)

/-- The per-segment loop of `MultiVoiceTTSWorker._generate_sequential`:
progress, then the call; an exception aborts with the handler's message, an
empty response aborts with a message naming the 1-based segment, a `None`
payload aborts via `BytesIO(None)`, and a payload is appended to the
accumulated audio.  When all segments are done the concatenation is emitted
(the WAV container header of the final export is abstracted away). -/
def seqLoop (backend : Nat → CallResult) (total : Nat) :
    Nat → List Nat → List (String × String) → List Event
  | _, acc, [] => [Event.finished acc]
  | i, acc, (voice, txt) :: rest =>
    Event.progress (seqProgressMsg (i + 1) total voice) ::
      Event.netCall voice txt ::
        match backend i with
        | CallResult.raises m => [Event.error (seqErrPre ++ m)]
        | CallResult.response false _ => [Event.error (seqErrPre ++ emptyRespMsg (i + 1))]
        | CallResult.response true none => [Event.error (seqErrPre ++ noneBytesMsg)]
        | CallResult.response true (some bs) => seqLoop backend total (i + 1) (acc ++ bs) rest

/-- `MultiVoiceTTSWorker._generate_sequential` (`src/audio_manager.py`):
fails outright without pydub, otherwise runs the per-segment loop.  No
validation of text, voices or credential is performed. -/
def generate_sequential (pydubOk : Bool) (backend : Nat → CallResult)
    (segments : List (String × String)) : List Event :=
  if !pydubOk then [Event.error "Для работы с несколькими голосами нужна библиотека pydub."]
  else seqLoop backend segments.length 0 [] segments

/-- The composite prompt built by `_generate_native_multispeaker`. -/
def nativePrompt (segments : List (String × String)) : String :=
  "TTS the following conversation:\n" ++
    String.intercalate "\n" (segments.map fun p => p.1 ++ ": " ++ p.2)

/-- The events emitted by the native path before its call completes. -/
def nativePre (segments : List (String × String)) : List Event :=
  [Event.progress "Генерация мультиспикерного аудио...",
   Event.netCallMulti (nativePrompt segments)]

/-- Every native-path outcome that raises inside its `try` block: an
exception, a response without candidates/parts, or a falsy payload
(`None` or empty bytes). -/
def isNativeFailure : CallResult → Bool
  | CallResult.raises _ => true
  | CallResult.response false _ => true
  | CallResult.response true none => true
  | CallResult.response true (some bs) => bs.isEmpty

/-- `MultiVoiceTTSWorker._generate_native_multispeaker`
(`src/audio_manager.py`): one composite call; on success the single payload
is the result, and on any failure the handler falls through to the
sequential path with the same segments. -/
def generate_native_multispeaker (pydubOk : Bool) (nativeCall : CallResult)
    (backend : Nat → CallResult) (segments : List (String × String)) : List Event :=
  nativePre segments ++
    match nativeCall with
    | CallResult.response true (some bs) =>
      if bs.isEmpty then generate_sequential pydubOk backend segments
      else [Event.finished bs]
    | _ => generate_sequential pydubOk backend segments

/-- `MultiVoiceTTSWorker.run` (`src/audio_manager.py`): the native strategy
when preferred and eligible, otherwise sequential.  The stored `api_key` is
handed to the client without any validation. -/
def run (pydubOk : Bool) (nativeCall : CallResult) (backend : Nat → CallResult)
    (api_key : String) (segments : List (String × String))
    (use_native_multispeaker : Bool) : List Event :=
  if use_native_multispeaker && can_use_native_multispeaker segments then
    generate_native_multispeaker pydubOk nativeCall backend segments
  else
    generate_sequential pydubOk backend segments

end MultiVoiceTTSWorker

namespace TTSWorker

/-- `TTSWorker.run` (`src/audio_manager.py`): validates the credential, the
text and the voice, in that order, aborting on the first failure before any
network activity; then one direct call whose outcome is reported.  The
validation sub-messages appended in the Python f-strings are abstracted. -/
def run (call : CallResult) (api_key text voice : String) : List Event :=
  if !(Validator.validate_api_key api_key) then [Event.error "Ошибка API ключа"]
  else if !(Validator.validate_text text) then [Event.error "Ошибка текста"]
  else if !(Validator.validate_voice voice) then [Event.error "Ошибка голоса"]
  else
    Event.progress "Инициализация TTS клиента..." ::
      Event.progress "Отправка запроса к API..." ::
        Event.netCall voice text ::
          match call with
          | CallResult.raises m => [Event.error ("Ошибка при генерации речи: " ++ m)]
          | CallResult.response false _ =>
            [Event.progress "Обработка ответа...", Event.error "Пустой ответ от API"]
          | CallResult.response true none =>
            [Event.progress "Обработка ответа...",
             Event.error "Не удалось получить аудио данные"]
          | CallResult.response true (some bs) =>
            if bs.isEmpty then
              [Event.progress "Обработка ответа...",
               Event.error "Не удалось получить аудио данные"]
            else [Event.progress "Обработка ответа...", Event.finished bs]

end TTSWorker

/-- The worker shape chosen by `TextToSpeechCore.create_worker`. -/
inductive Worker
  | single (api_key text voice : String)
  | multi (api_key : String) (segments : List (String × String)) (use_native : Bool)
deriving DecidableEq

namespace TextToSpeechCore

/-- `TextToSpeechCore.create_worker` (`src/audio_manager.py`): a multi-voice
worker over the parsed segments whenever the delimiter is enabled or the
text contains the opening tag marker; otherwise the direct single-voice
worker with the given voice and whole text. -/
def create_worker (api_key text voice : String) (delimiter_enabled : Bool)
    (delimiter_string : String) (delimiter_voice_sequence : List String)
    (use_native : Bool) : Worker :=
  if delimiter_enabled || TextParser.has_voice_tags text then
    Worker.multi api_key
      (TextParser.parse text voice delimiter_enabled delimiter_string
        delimiter_voice_sequence)
      use_native
  else
    Worker.single api_key text voice

end TextToSpeechCore

/-- The concatenation, in order, of the payloads of calls `i, …, i+n-1`. -/
def joinPayloads (backend : Nat → CallResult) : Nat → Nat → List Nat
  | _, 0 => []
  | i, n + 1 => payloadOf (backend i) ++ joinPayloads backend (i + 1) n

/-- The sequential-loop error message produced by a failing call outcome at
1-based segment number `n` (`none` for a successful outcome). -/
def failMsg : CallResult → Nat → Option String
  | CallResult.raises m, _ => some (seqErrPre ++ m)
  | CallResult.response false _, n => some (seqErrPre ++ emptyRespMsg n)
  | CallResult.response true none, _ => some (seqErrPre ++ noneBytesMsg)
  | CallResult.response true (some _), _ => none

/-!  ## Theorems  -/

theorem dropPre_append {p s r : List Char} (h : dropPre p s = some r) : s = p ++ r := by
  induction p generalizing s with
  | nil => simp [dropPre] at h; simp [h]
  | cons a p ih =>
    cases s with
    | nil => simp [dropPre] at h
    | cons b s =>
      by_cases hab : a == b
      · have hb : a = b := by simpa using hab
        have := @ih s (by simpa [dropPre, hab] using h)
        simp [hb, this]
      · simp [dropPre, hab] at h

theorem splitFirst_decomp {pat s : List Char} {q : List Char × List Char}
    (h : splitFirst pat s = some q) : s = q.1 ++ pat ++ q.2 := by
  induction s generalizing q with
  | nil =>
    cases hd : dropPre pat [] with
    | none => simp [splitFirst, hd] at h
    | some r =>
      have hs := dropPre_append hd
      simp [splitFirst, hd] at h
      simp [← h, ← hs]
  | cons c rest ih =>
    cases hd : dropPre pat (c :: rest) with
    | some r =>
      have hs := dropPre_append hd
      simp [splitFirst, hd] at h
      simp [← h, ← hs]
    | none =>
      simp [splitFirst, hd] at h
      obtain ⟨q1, q2, hq, rfl⟩ := h
      have := ih hq
      simp [this]

theorem containsSub_cons {pat : List Char} {c : Char} {rest : List Char}
    (h : containsSub pat rest = true) : containsSub pat (c :: rest) = true := by
  unfold containsSub at *
  cases hd : dropPre pat (c :: rest) with
  | some r => simp [splitFirst, hd]
  | none =>
    cases hs : splitFirst pat rest with
    | none => simp [hs] at h
    | some q => simp [splitFirst, hd, hs]

theorem mem_of_containsSub {pat s : List Char} {c : Char}
    (h : containsSub pat s = true) (hc : c ∈ pat) : c ∈ s := by
  unfold containsSub at h
  cases hs : splitFirst pat s with
  | none => simp [hs] at h
  | some q =>
    have := splitFirst_decomp hs
    subst this
    simp [hc]

theorem mem_dropWhile_of_neg {p : Char → Bool} {c : Char} {l : List Char}
    (hc : c ∈ l) (hp : p c = false) : c ∈ l.dropWhile p := by
  induction l with
  | nil => cases hc
  | cons a l ih =>
    by_cases ha : p a
    · rw [List.dropWhile_cons_of_pos ha]
      rcases List.mem_cons.mp hc with rfl | hmem
      · rw [hp] at ha; cases ha
      · exact ih hmem
    · rw [List.dropWhile_cons_of_neg (by simpa using ha)]
      exact hc

theorem pyStrip_ne_nil {c : Char} {l : List Char}
    (hc : c ∈ l) (hw : c.isWhitespace = false) : pyStrip l ≠ [] := by
  unfold pyStrip
  intro hnil
  have h1 : c ∈ l.dropWhile Char.isWhitespace := mem_dropWhile_of_neg hc hw
  have h2 : c ∈ (l.dropWhile Char.isWhitespace).reverse := by simpa using h1
  have h3 : c ∈ (l.dropWhile Char.isWhitespace).reverse.dropWhile Char.isWhitespace :=
    mem_dropWhile_of_neg h2 hw
  rw [List.reverse_eq_nil_iff] at hnil
  rw [hnil] at h3
  cases h3

theorem containsSub_of_dropPre {pat s : List Char} (h : (dropPre pat s).isSome) :
    containsSub pat s = true := by
  unfold containsSub
  cases s with
  | nil =>
    cases hd : dropPre pat [] with
    | none => rw [hd] at h; simp at h
    | some r => simp [splitFirst, hd]
  | cons c rest =>
    cases hd : dropPre pat (c :: rest) with
    | none => rw [hd] at h; simp at h
    | some r => simp [splitFirst, hd]

theorem matchTagAt_open {s : List Char} {x : List Char × List Char × List Char}
    (h : TextParser.matchTagAt s = some x) : containsSub TextParser.tagOpen s = true := by
  apply containsSub_of_dropPre
  cases hd : dropPre TextParser.tagOpen s with
  | none => simp [TextParser.matchTagAt, hd] at h
  | some r => simp [hd]

theorem hasCompleteTag_open : ∀ {s : List Char}, TextParser.hasCompleteTag s = true →
    containsSub TextParser.tagOpen s = true := by
  intro s
  induction s with
  | nil => intro h; simp [TextParser.hasCompleteTag] at h
  | cons c rest ih =>
    intro h
    rw [TextParser.hasCompleteTag, Bool.or_eq_true] at h
    rcases h with h | h
    · obtain ⟨x, hx⟩ := Option.isSome_iff_exists.mp h
      exact matchTagAt_open hx
    · exact containsSub_cons (ih h)

theorem findTag_none : ∀ {s : List Char}, TextParser.hasCompleteTag s = false →
    TextParser.findTag s = none := by
  intro s
  induction s with
  | nil => intro _; rfl
  | cons c rest ih =>
    intro h
    rw [TextParser.hasCompleteTag, Bool.or_eq_false_iff] at h
    obtain ⟨h1, h2⟩ := h
    have h1' : TextParser.matchTagAt (c :: rest) = none := by
      cases hx : TextParser.matchTagAt (c :: rest) with
      | none => rfl
      | some x => rw [hx] at h1; simp at h1
    simp [TextParser.findTag, h1', ih h2]

theorem tagScanF_of_findTag_none {dv : String} {fuel : Nat} {s : List Char}
    (h : TextParser.findTag s = none) :
    TextParser.tagScanF dv fuel s =
      if s.isEmpty then [] else [(dv, String.mk (pyStrip s))] := by
  cases fuel with
  | zero => rfl
  | succ n => simp [TextParser.tagScanF, h]

theorem parse_tag_branch {t dv ds : String} {de : Bool} {seqv : List String}
    (h : TextParser.has_voice_tags t = true) :
    TextParser.parse t dv de ds seqv =
      (TextParser.tagScan dv t.data).filter fun p => !(p.2 == "") := by
  simp [TextParser.parse, h]

theorem okCall_shape {c : CallResult} (h : okCall c = true) :
    ∃ bs, c = CallResult.response true (some bs) := by
  cases c with
  | raises m => simp [okCall] at h
  | response hp pl =>
    cases hp with
    | false => simp [okCall] at h
    | true =>
      cases pl with
      | none => simp [okCall] at h
      | some bs => exact ⟨bs, rfl⟩

theorem seqLoop_finished {backend : Nat → CallResult} {total : Nat} :
    ∀ (l : List (String × String)) (i : Nat) (acc d : List Nat),
      Event.finished d ∈ MultiVoiceTTSWorker.seqLoop backend total i acc l →
      (∀ j, j < l.length → okCall (backend (i + j)) = true) ∧
      d = acc ++ joinPayloads backend i l.length := by
  intro l
  induction l with
  | nil =>
    intro i acc d h
    simp [MultiVoiceTTSWorker.seqLoop] at h
    subst h
    simp [joinPayloads]
  | cons seg rest ih =>
    intro i acc d h
    obtain ⟨voice, txt⟩ := seg
    cases hb : backend i with
    | raises m => simp [MultiVoiceTTSWorker.seqLoop, hb] at h
    | response hp pl =>
      cases hp with
      | false => simp [MultiVoiceTTSWorker.seqLoop, hb] at h
      | true =>
        cases pl with
        | none => simp [MultiVoiceTTSWorker.seqLoop, hb] at h
        | some bs =>
          have h' : Event.finished d ∈
              MultiVoiceTTSWorker.seqLoop backend total (i + 1) (acc ++ bs) rest := by
            simpa [MultiVoiceTTSWorker.seqLoop, hb] using h
          obtain ⟨h1, h2⟩ := ih (i + 1) (acc ++ bs) d h'
          refine ⟨?_, ?_⟩
          · intro j hj
            cases j with
            | zero => simpa [okCall] using congrArg okCall hb
            | succ j =>
              have hlt : j < rest.length := by simpa using hj
              have := h1 j hlt
              have harith : i + 1 + j = i + (j + 1) := by omega
              rw [harith] at this
              exact this
          · rw [h2]
            simp [joinPayloads, hb, payloadOf, List.append_assoc]

theorem seqLoop_fail {backend : Nat → CallResult} {total : Nat} :
    ∀ (l : List (String × String)) (i acc' : Nat) (acc : List Nat) (msg : String),
      acc' < l.length →
      (∀ m, m < acc' → okCall (backend (i + m)) = true) →
      failMsg (backend (i + acc')) (i + acc' + 1) = some msg →
      Event.error msg ∈ MultiVoiceTTSWorker.seqLoop backend total i acc l := by
  intro l
  induction l with
  | nil => intro i j acc msg hj; simp at hj
  | cons seg rest ih =>
    intro i j acc msg hj hok hmsg
    obtain ⟨voice, txt⟩ := seg
    cases j with
    | zero =>
      rw [Nat.add_zero] at hmsg
      cases hb : backend i with
      | raises m =>
        rw [hb] at hmsg
        simp [failMsg] at hmsg
        simp [MultiVoiceTTSWorker.seqLoop, hb, hmsg]
      | response hp pl =>
        cases hp with
        | false =>
          rw [hb] at hmsg
          simp [failMsg] at hmsg
          simp [MultiVoiceTTSWorker.seqLoop, hb, hmsg]
        | true =>
          cases pl with
          | none =>
            rw [hb] at hmsg
            simp [failMsg] at hmsg
            simp [MultiVoiceTTSWorker.seqLoop, hb, hmsg]
          | some bs =>
            rw [hb] at hmsg
            simp [failMsg] at hmsg
    | succ j =>
      have h0 : okCall (backend i) = true := by
        have := hok 0 (by omega)
        simpa using this
      obtain ⟨bs, hb⟩ := okCall_shape h0
      have hok' : ∀ m, m < j → okCall (backend (i + 1 + m)) = true := by
        intro m hm
        have := hok (m + 1) (by omega)
        have harith : i + (m + 1) = i + 1 + m := by omega
        rw [harith] at this
        exact this
      have hmsg' : failMsg (backend (i + 1 + j)) (i + 1 + j + 1) = some msg := by
        have harith : i + 1 + j = i + (j + 1) := by omega
        rw [harith]
        exact hmsg
      have hlt : j < rest.length := by simpa using hj
      have hmem := ih (i + 1) j (acc ++ bs) msg hlt hok' hmsg'
      simp only [MultiVoiceTTSWorker.seqLoop, hb]
      exact List.mem_cons_of_mem _ (List.mem_cons_of_mem _ hmem)

theorem seqLoop_ok {backend : Nat → CallResult} {total : Nat} :
    ∀ (l : List (String × String)) (i : Nat) (acc : List Nat),
      (∀ j, j < l.length → okCall (backend (i + j)) = true) →
      Event.finished (acc ++ joinPayloads backend i l.length) ∈
        MultiVoiceTTSWorker.seqLoop backend total i acc l := by
  intro l
  induction l with
  | nil =>
    intro i acc _
    simp [MultiVoiceTTSWorker.seqLoop, joinPayloads]
  | cons seg rest ih =>
    intro i acc hok
    obtain ⟨voice, txt⟩ := seg
    have h0 : okCall (backend i) = true := by
      have := hok 0 (by simp)
      simpa using this
    obtain ⟨bs, hb⟩ := okCall_shape h0
    have hok' : ∀ j, j < rest.length → okCall (backend (i + 1 + j)) = true := by
      intro j hjl
      have := hok (j + 1) (by simpa using Nat.succ_lt_succ hjl)
      have harith : i + (j + 1) = i + 1 + j := by omega
      rw [harith] at this
      exact this
    have hmem := ih (i + 1) (acc ++ bs) hok'
    simp only [MultiVoiceTTSWorker.seqLoop, hb, joinPayloads, payloadOf]
    refine List.mem_cons_of_mem _ (List.mem_cons_of_mem _ ?_)
    simpa [List.append_assoc] using hmem

theorem dropPre_isSome_iff {p : List Char} : ∀ {s : List Char},
    (dropPre p s).isSome = true ↔ s.take p.length = p := by
  induction p with
  | nil => intro s; simp [dropPre]
  | cons a p ih =>
    intro s
    cases s with
    | nil => simp [dropPre]
    | cons b s =>
      by_cases hab : a = b
      · subst hab
        simp [dropPre, ih]
      · simp [dropPre, hab, Ne.symm hab]

/-!  ## Claim theorems  -/

/-- Claim C7: in tag mode `parse` emits the untagged spans before a tag and
after the last tag trimmed under the default voice, drops spans that trim to
nothing, keeps a tag's voice when it is in the catalog and falls back to the
default voice otherwise (the logged warning is unobservable); in particular
the spec's example with default voice `Nova` parses to
`[("Kore","Hi"), ("Puck","Bye")]`. -/
theorem claimC7_tag_mode_segments :
    TextParser.parse "[voice:Kore]Hi[/voice] [voice:Puck]Bye[/voice]" "Nova" false "---" []
        = [("Kore", "Hi"), ("Puck", "Bye")] ∧
      TextParser.parse "  pre [voice:Kore] Hi [/voice]   post  " "Nova" false "---" []
        = [("Nova", "pre"), ("Kore", "Hi"), ("Nova", "post")] ∧
      TextParser.parse "[voice:NotAVoice]Hi[/voice]" "Nova" false "---" []
        = [("Nova", "Hi")] :=
  ⟨by decide, by decide, by decide⟩

/-- Claim C8: delimiter mode splits at every literal occurrence of the
delimiter, drops parts that trim to nothing, and assigns voices to the kept
parts by cycling through the voice sequence (`[default_voice]` when the
sequence is empty); in particular `"A---B---C"` with sequence `["X","Y"]`
parses to `[("X","A"),("Y","B"),("X","C")]`, cycling over the kept parts
only. -/
theorem claimC8_delimiter_mode :
    TextParser.parse "A---B---C" "Nova" true "---" ["X", "Y"]
        = [("X", "A"), ("Y", "B"), ("X", "C")] ∧
      TextParser.parse "A--- ---B---C" "Nova" true "---" ["X", "Y"]
        = [("X", "A"), ("Y", "B"), ("X", "C")] ∧
      TextParser.parse "A---B" "Nova" true "---" []
        = [("Nova", "A"), ("Nova", "B")] :=
  ⟨by decide, by decide, by decide⟩

/-- Claim C6: an input containing a complete voice tag is parsed in tag mode
whatever the delimiter configuration: the result is exactly the filtered tag
scan, and coincides with the parse under a disabled delimiter, so the
delimiter is never used to split such an input. -/
theorem claimC6_tag_priority (t dv ds : String) (de : Bool) (seqv : List String)
    (h : TextParser.hasCompleteTag t.data = true) :
    TextParser.parse t dv de ds seqv
        = (TextParser.tagScan dv t.data).filter (fun p => !(p.2 == "")) ∧
      TextParser.parse t dv de ds seqv = TextParser.parse t dv false "-" [] := by
  have hv : TextParser.has_voice_tags t = true := hasCompleteTag_open h
  exact ⟨parse_tag_branch hv, by rw [parse_tag_branch hv, parse_tag_branch hv]⟩

/-- Witness for claim C6: an input holding both a complete tag and the
enabled `---` delimiter is parsed in tag mode only — the delimiter text
survives inside the default-voice segment. -/
theorem claimC6_tag_priority_witness :
    TextParser.parse "A---[voice:Kore]Hi[/voice]" "Nova" true "---" ["X", "Y"]
        = TextParser.parse "A---[voice:Kore]Hi[/voice]" "Nova" false "-" [] ∧
      TextParser.parse "A---[voice:Kore]Hi[/voice]" "Nova" true "---" ["X", "Y"]
        = [("Nova", "A---"), ("Kore", "Hi")] :=
  ⟨(claimC6_tag_priority "A---[voice:Kore]Hi[/voice]" "Nova" "---" true ["X", "Y"]
      (by decide)).2,
   by decide⟩

/-- Claim C10: a text containing the opening marker but no complete tag is
still parsed in tag mode (the mode test checks only the opening substring),
the delimiter configuration is ignored, and the result is the single segment
of the default voice with the whole trimmed text, marker included. -/
theorem claimC10_incomplete_tag (t dv ds : String) (de : Bool) (seqv : List String)
    (h1 : TextParser.has_voice_tags t = true)
    (h2 : TextParser.hasCompleteTag t.data = false) :
    TextParser.parse t dv de ds seqv = [(dv, String.mk (pyStrip t.data))] := by
  have h1' : containsSub TextParser.tagOpen t.data = true := h1
  have hmem : '[' ∈ t.data := mem_of_containsSub h1' (by decide)
  have hstrip : pyStrip t.data ≠ [] := pyStrip_ne_nil hmem (by decide)
  have hempty : t.data.isEmpty = false := by
    cases ht : t.data with
    | nil => rw [ht] at hmem; cases hmem
    | cons c r => rfl
  rw [parse_tag_branch h1, TextParser.tagScan,
    tagScanF_of_findTag_none (findTag_none h2), hempty]
  have hbeq : (String.mk (pyStrip t.data) == "") = false := by
    simp [String.ext_iff, hstrip]
  simp [List.filter, hbeq]

/-- Witness for claim C10: an incomplete tag marker forces tag mode even
with the delimiter enabled and present in the text, and the marker text is
kept verbatim in the single default-voice segment. -/
theorem claimC10_incomplete_tag_witness :
    TextParser.parse "[voice: A---B" "Nova" true "---" ["X"]
      = [("Nova", "[voice: A---B")] := by
  have h := claimC10_incomplete_tag "[voice: A---B" "Nova" "---" true ["X"]
    (by decide) (by decide)
  rw [h]
  decide

/-- Claim C4: the native multi-speaker strategy is selected iff native
generation is preferred and the number of distinct segment voices is
exactly 2; whenever the distinct count differs from 2 (one voice, or three
or more), `run` takes the sequential path even when native is preferred. -/
theorem claimC4_native_iff_two_voices (segments : List (String × String)) (u : Bool) :
    ((u && MultiVoiceTTSWorker.can_use_native_multispeaker segments) = true ↔
      (u = true ∧ (segments.map Prod.fst).toFinset.card = 2)) ∧
    ∀ (pydubOk : Bool) (nc : CallResult) (bk : Nat → CallResult) (key : String),
      (segments.map Prod.fst).toFinset.card ≠ 2 →
      MultiVoiceTTSWorker.run pydubOk nc bk key segments u
        = MultiVoiceTTSWorker.generate_sequential pydubOk bk segments := by
  have hcard : (segments.map Prod.fst).toFinset.card = (segments.map Prod.fst).dedup.length :=
    List.card_toFinset _
  have hiff : (u && MultiVoiceTTSWorker.can_use_native_multispeaker segments) = true ↔
      (u = true ∧ (segments.map Prod.fst).toFinset.card = 2) := by
    simp only [MultiVoiceTTSWorker.can_use_native_multispeaker, Bool.and_eq_true,
      decide_eq_true_eq, hcard]
    constructor
    · rintro ⟨hu, h1, h2⟩; exact ⟨hu, by omega⟩
    · rintro ⟨hu, h⟩; exact ⟨hu, by omega, by omega⟩
  refine ⟨hiff, ?_⟩
  intro pydubOk nc bk key hne
  have hfalse : (u && MultiVoiceTTSWorker.can_use_native_multispeaker segments) = false := by
    cases hval : (u && MultiVoiceTTSWorker.can_use_native_multispeaker segments) with
    | false => rfl
    | true => exact absurd (hiff.mp hval).2 hne
  simp [MultiVoiceTTSWorker.run, hfalse]

/-- Witness for claim C4: three distinct voices never select the native
strategy even when preferred, while exactly two distinct voices (over three
segments) satisfy the selection condition. -/
theorem claimC4_native_iff_two_voices_witness :
    MultiVoiceTTSWorker.run true (CallResult.response true (some [1]))
        (fun _ => CallResult.response true (some [2])) "k"
        [("Kore", "a"), ("Puck", "b"), ("Leda", "c")] true
      = MultiVoiceTTSWorker.generate_sequential true
          (fun _ => CallResult.response true (some [2]))
          [("Kore", "a"), ("Puck", "b"), ("Leda", "c")] ∧
    (true && MultiVoiceTTSWorker.can_use_native_multispeaker
        [("Kore", "a"), ("Puck", "b"), ("Kore", "c")]) = true :=
  ⟨(claimC4_native_iff_two_voices [("Kore", "a"), ("Puck", "b"), ("Leda", "c")] true).2
      true _ _ "k" (by decide),
   (claimC4_native_iff_two_voices [("Kore", "a"), ("Puck", "b"), ("Kore", "c")] true).1.mpr
      ⟨rfl, by decide⟩⟩

/-- Claim C5: every native-path failure (raised call, missing
candidates/parts, `None` or empty payload) is non-fatal — the run degrades
to the sequential path over the same segments after the native preamble,
which contains no error, so a caller-visible error can only come from the
sequential attempt; and when every per-segment call succeeds the run still
finishes with the concatenated audio. -/
theorem claimC5_native_failure_falls_back (nc : CallResult) (bk : Nat → CallResult)
    (key : String) (segments : List (String × String)) (u : Bool)
    (hfail : MultiVoiceTTSWorker.isNativeFailure nc = true)
    (hsel : (u && MultiVoiceTTSWorker.can_use_native_multispeaker segments) = true) :
    (∀ pydubOk : Bool,
      MultiVoiceTTSWorker.run pydubOk nc bk key segments u
        = MultiVoiceTTSWorker.nativePre segments
            ++ MultiVoiceTTSWorker.generate_sequential pydubOk bk segments) ∧
    (∀ m, Event.error m ∉ MultiVoiceTTSWorker.nativePre segments) ∧
    ((∀ j, j < segments.length → okCall (bk j) = true) →
      Event.finished (joinPayloads bk 0 segments.length)
        ∈ MultiVoiceTTSWorker.run true nc bk key segments u) := by
  have hrun : ∀ pydubOk : Bool,
      MultiVoiceTTSWorker.run pydubOk nc bk key segments u
        = MultiVoiceTTSWorker.nativePre segments
            ++ MultiVoiceTTSWorker.generate_sequential pydubOk bk segments := by
    intro pydubOk
    rw [MultiVoiceTTSWorker.run]
    rw [hsel]
    cases nc with
    | raises m => simp [MultiVoiceTTSWorker.generate_native_multispeaker]
    | response hp pl =>
      cases hp with
      | false => simp [MultiVoiceTTSWorker.generate_native_multispeaker]
      | true =>
        cases pl with
        | none => simp [MultiVoiceTTSWorker.generate_native_multispeaker]
        | some bs =>
          have hbs : bs.isEmpty = true := by
            simpa [MultiVoiceTTSWorker.isNativeFailure] using hfail
          simp [MultiVoiceTTSWorker.generate_native_multispeaker, hbs]
  refine ⟨hrun, ?_, ?_⟩
  · intro m
    simp [MultiVoiceTTSWorker.nativePre]
  · intro hok
    rw [hrun true]
    apply List.mem_append_right
    have := @seqLoop_ok bk segments.length segments 0 [] (by
      intro j hj
      simpa using hok j hj)
    simpa [MultiVoiceTTSWorker.generate_sequential] using this

/-- Witness for claim C5: a native empty response over two voices falls
back to the sequential path and, with both segment calls succeeding,
finishes with the concatenated audio. -/
theorem claimC5_native_failure_falls_back_witness :
    MultiVoiceTTSWorker.run true (CallResult.response false none)
        (fun _ => CallResult.response true (some [9])) "k"
        [("Kore", "a"), ("Puck", "b")] true
      = MultiVoiceTTSWorker.nativePre [("Kore", "a"), ("Puck", "b")]
          ++ MultiVoiceTTSWorker.generate_sequential true
              (fun _ => CallResult.response true (some [9]))
              [("Kore", "a"), ("Puck", "b")] ∧
    Event.finished [9, 9]
      ∈ MultiVoiceTTSWorker.run true (CallResult.response false none)
          (fun _ => CallResult.response true (some [9])) "k"
          [("Kore", "a"), ("Puck", "b")] true := by
  have h := claimC5_native_failure_falls_back (CallResult.response false none)
    (fun _ => CallResult.response true (some [9])) "k"
    [("Kore", "a"), ("Puck", "b")] true (by decide) (by decide)
  exact ⟨h.1 true, h.2.2 (by decide)⟩

/-- Counterexample to claim C1: the multi-voice worker issues its remote
call even though both the credential and the segment's voice fail
validation — an invalid voice and credential do reach the backend, and no
validation aborts the request. -/
theorem claimC1_counterexample :
    Validator.validate_api_key "bad" = false ∧
    Validator.validate_voice "NotAVoice" = false ∧
    Event.netCall "NotAVoice" "Hi"
      ∈ MultiVoiceTTSWorker.run true (CallResult.response true (some [7]))
          (fun _ => CallResult.response true (some [7])) "bad" [("NotAVoice", "Hi")] true :=
  ⟨by decide, by decide, by decide⟩

/-- Amended claim C1: the multi-voice worker performs no validation of its
own — it always issues the remote call for its segment regardless of the
voice, text or credential it was given; only the single-voice worker
validates the credential, text and voice, in that order, aborting on the
first failure with a specific error and no network activity. -/
theorem claimC1_multi_worker_skips_validation :
    (∀ (key v t : String) (nc : CallResult) (bk : Nat → CallResult) (u : Bool),
      Event.netCall v t ∈ MultiVoiceTTSWorker.run true nc bk key [(v, t)] u) ∧
    (∀ (key text voice : String) (call : CallResult),
      Validator.validate_api_key key = false →
      TTSWorker.run call key text voice = [Event.error "Ошибка API ключа"]) ∧
    (∀ (key text voice : String) (call : CallResult),
      Validator.validate_api_key key = true → Validator.validate_text text = false →
      TTSWorker.run call key text voice = [Event.error "Ошибка текста"]) ∧
    (∀ (key text voice : String) (call : CallResult),
      Validator.validate_api_key key = true → Validator.validate_text text = true →
      Validator.validate_voice voice = false →
      TTSWorker.run call key text voice = [Event.error "Ошибка голоса"]) := by
  refine ⟨?_, ?_, ?_, ?_⟩
  · intro key v t nc bk u
    have hcan : MultiVoiceTTSWorker.can_use_native_multispeaker [(v, t)] = false := by
      simp [MultiVoiceTTSWorker.can_use_native_multispeaker]
    have hfalse : (u && MultiVoiceTTSWorker.can_use_native_multispeaker [(v, t)]) = false := by
      rw [hcan, Bool.and_false]
    rw [MultiVoiceTTSWorker.run, hfalse]
    simp only [Bool.false_eq_true, if_false, MultiVoiceTTSWorker.generate_sequential,
      Bool.not_true, MultiVoiceTTSWorker.seqLoop]
    exact List.mem_cons_of_mem _ (List.mem_cons_self _ _)
  · intro key text voice call h
    simp [TTSWorker.run, h]
  · intro key text voice call h1 h2
    simp [TTSWorker.run, h1, h2]
  · intro key text voice call h1 h2 h3
    simp [TTSWorker.run, h1, h2, h3]

/-- Witness for amended claim C1: the multi-voice worker still calls the
backend for an unvalidated voice with a bad credential, while the
single-voice worker with the same bad credential aborts with the
credential error and issues no call. -/
theorem claimC1_multi_worker_skips_validation_witness :
    Event.netCall "NotAVoice" "Hi"
      ∈ MultiVoiceTTSWorker.run true (CallResult.raises "x")
          (fun _ => CallResult.raises "x") "bad" [("NotAVoice", "Hi")] false ∧
    TTSWorker.run (CallResult.raises "x") "bad" "Hi" "Kore"
      = [Event.error "Ошибка API ключа"] :=
  ⟨claimC1_multi_worker_skips_validation.1 "bad" "NotAVoice" "Hi"
      (CallResult.raises "x") (fun _ => CallResult.raises "x") false,
   claimC1_multi_worker_skips_validation.2.1 "bad" "Hi" "Kore"
      (CallResult.raises "x") (by decide)⟩

/-- Counterexample to claim C2: `"[voice:Kore]Hi[/voice]"` parses to exactly
one segment, yet `create_worker` selects the multi-voice worker (dispatch
looks at the text and settings, not the segment count), whose sequential run
emits the multi-segment progress text containing `1/1`. -/
theorem claimC2_counterexample :
    (TextParser.parse "[voice:Kore]Hi[/voice]" "Nova" false "---" []).length = 1 ∧
    TextToSpeechCore.create_worker "key" "[voice:Kore]Hi[/voice]" "Nova" false "---" [] true
      = Worker.multi "key" [("Kore", "Hi")] true ∧
    Event.progress (seqProgressMsg 1 1 "Kore")
      ∈ MultiVoiceTTSWorker.run true (CallResult.response true (some [7]))
          (fun _ => CallResult.response true (some [7])) "key" [("Kore", "Hi")] true ∧
    containsSub "1/1".data (seqProgressMsg 1 1 "Kore").data = true :=
  ⟨by decide, by decide, by decide, by decide⟩

/-- Amended claim C2: the direct single-call worker is chosen exactly when
the delimiter is disabled and the text has no opening tag marker; in that
case the parse yields at most one segment and the direct worker issues one
remote call carrying the given voice and the whole text.  When a tag marker
is present or the delimiter is enabled, the multi-voice worker is created
even if parsing yields exactly one segment. -/
theorem claimC2_single_dispatch (key text voice ds : String) (seqv : List String) (u : Bool)
    (h : TextParser.has_voice_tags text = false) :
    TextToSpeechCore.create_worker key text voice false ds seqv u
        = Worker.single key text voice ∧
      (TextParser.parse text voice false ds seqv).length ≤ 1 ∧
      ∀ (call : CallResult),
        Validator.validate_api_key key = true → Validator.validate_text text = true →
        Validator.validate_voice voice = true →
        callsOf (TTSWorker.run call key text voice) = [(voice, text)] := by
  refine ⟨?_, ?_, ?_⟩
  · simp [TextToSpeechCore.create_worker, h]
  · have hshape : TextParser.parse text voice false ds seqv
        = [(voice, pyStripS text)].filter (fun p => !(p.2 == "")) := by
      simp [TextParser.parse, h]
    rw [hshape]
    simpa using List.length_filter_le (fun p => !(p.2 == "")) [(voice, pyStripS text)]
  · intro call h1 h2 h3
    cases call with
    | raises m => simp [TTSWorker.run, h1, h2, h3, callsOf]
    | response hp pl =>
      cases hp with
      | false => simp [TTSWorker.run, h1, h2, h3, callsOf]
      | true =>
        cases pl with
        | none => simp [TTSWorker.run, h1, h2, h3, callsOf]
        | some bs =>
          by_cases hbs : bs.isEmpty
          · simp [TTSWorker.run, h1, h2, h3, callsOf, hbs]
          · simp [TTSWorker.run, h1, h2, h3, callsOf, hbs]

/-- Witness for amended claim C2: plain text with the delimiter disabled
gets the direct worker, and its run issues exactly the one call with the
selected voice and the whole text. -/
theorem claimC2_single_dispatch_witness :
    TextToSpeechCore.create_worker "AIzaSyA1234567890-_abcdefghijklmnop" "Hello" "Kore"
        false "---" [] true
      = Worker.single "AIzaSyA1234567890-_abcdefghijklmnop" "Hello" "Kore" ∧
    callsOf (TTSWorker.run (CallResult.response true (some [3]))
        "AIzaSyA1234567890-_abcdefghijklmnop" "Hello" "Kore") = [("Kore", "Hello")] := by
  have h := claimC2_single_dispatch "AIzaSyA1234567890-_abcdefghijklmnop" "Hello" "Kore"
    "---" [] true (by decide)
  exact ⟨h.1, h.2.2 (CallResult.response true (some [3])) (by decide) (by decide) (by decide)⟩

/-- Counterexample to claim C3: when the remote call for segment 2 of 3
raises, the run aborts with the handler's wrapper around the exception's
own message — a message that nowhere contains the failing segment's number
(the digit 2 does not occur in it). -/
theorem claimC3_counterexample :
    MultiVoiceTTSWorker.run true (CallResult.response true (some [7]))
        (fun i => if i == 1 then CallResult.raises "network down"
                  else CallResult.response true (some [5]))
        "key" [("Kore", "a"), ("Puck", "b"), ("Kore", "c")] false
      = [Event.progress (seqProgressMsg 1 3 "Kore"), Event.netCall "Kore" "a",
         Event.progress (seqProgressMsg 2 3 "Puck"), Event.netCall "Puck" "b",
         Event.error (seqErrPre ++ "network down")] ∧
    containsSub "2".data (seqErrPre ++ "network down").data = false :=
  ⟨by decide, by decide⟩

/-- Amended claim C3: in the sequential path any single segment failure
aborts the whole generation and a success result is emitted only when every
segment's call returns audio, carrying the concatenation of all segments'
audio in order — never a proper subset; the failure message identifies the
1-based failing segment number when the response lacks candidates or parts,
while a raised remote error is reported with the exception's own message,
without an added segment number. -/
theorem claimC3_sequential_abort :
    (∀ (bk : Nat → CallResult) (segments : List (String × String)) (d : List Nat),
      Event.finished d ∈ MultiVoiceTTSWorker.generate_sequential true bk segments →
      (∀ j, j < segments.length → okCall (bk j) = true) ∧
        d = joinPayloads bk 0 segments.length) ∧
    (∀ (bk : Nat → CallResult) (segments : List (String × String)) (j : Nat)
        (pl : Option (List Nat)),
      j < segments.length →
      (∀ m, m < j → okCall (bk m) = true) →
      bk j = CallResult.response false pl →
      Event.error (seqErrPre ++ emptyRespMsg (j + 1))
        ∈ MultiVoiceTTSWorker.generate_sequential true bk segments) ∧
    (∀ (bk : Nat → CallResult) (segments : List (String × String)) (j : Nat) (m : String),
      j < segments.length →
      (∀ i, i < j → okCall (bk i) = true) →
      bk j = CallResult.raises m →
      Event.error (seqErrPre ++ m)
        ∈ MultiVoiceTTSWorker.generate_sequential true bk segments) := by
  refine ⟨?_, ?_, ?_⟩
  · intro bk segments d hmem
    have hmem' : Event.finished d
        ∈ MultiVoiceTTSWorker.seqLoop bk segments.length 0 [] segments := by
      simpa [MultiVoiceTTSWorker.generate_sequential] using hmem
    obtain ⟨h1, h2⟩ := seqLoop_finished segments 0 [] d hmem'
    exact ⟨fun j hj => by simpa using h1 j hj, by simpa using h2⟩
  · intro bk segments j pl hj hok hbk
    have hmsg : failMsg (bk (0 + j)) (0 + j + 1) = some (seqErrPre ++ emptyRespMsg (j + 1)) := by
      simp [Nat.zero_add, hbk, failMsg]
    have := @seqLoop_fail bk segments.length segments 0 j []
      (seqErrPre ++ emptyRespMsg (j + 1)) hj (fun m hm => by simpa using hok m hm) hmsg
    simpa [MultiVoiceTTSWorker.generate_sequential] using this
  · intro bk segments j m hj hok hbk
    have hmsg : failMsg (bk (0 + j)) (0 + j + 1) = some (seqErrPre ++ m) := by
      simp [Nat.zero_add, hbk, failMsg]
    have := @seqLoop_fail bk segments.length segments 0 j []
      (seqErrPre ++ m) hj (fun i hi => by simpa using hok i hi) hmsg
    simpa [MultiVoiceTTSWorker.generate_sequential] using this

/-- Witness for amended claim C3: an empty response for segment 2 of 3
after a successful segment 1 emits the abort error naming segment 2. -/
theorem claimC3_sequential_abort_witness :
    Event.error (seqErrPre ++ emptyRespMsg 2)
      ∈ MultiVoiceTTSWorker.generate_sequential true
          (fun i => if i == 1 then CallResult.response false none
                    else CallResult.response true (some [5]))
          [("Kore", "a"), ("Puck", "b"), ("Kore", "c")] :=
  claimC3_sequential_abort.2.1
    (fun i => if i == 1 then CallResult.response false none
              else CallResult.response true (some [5]))
    [("Kore", "a"), ("Puck", "b"), ("Kore", "c")] 1 none
    (by decide) (by decide) (by decide)

/-- Counterexample to claim C9: the validator strips whitespace before
checking, so a credential with a leading space — a character outside
letters, digits, hyphen and underscore, and not starting with `AIza` — is
nevertheless accepted. -/
theorem claimC9_counterexample :
    Validator.validate_api_key " AIzaaaaaaaaaaaaaaaaaaaaaaaaaaaaaa" = true ∧
    ' ' ∈ " AIzaaaaaaaaaaaaaaaaaaaaaaaaaaaaaa".data ∧
    isApiKeyChar ' ' = false ∧
    (dropPre "AIza".data " AIzaaaaaaaaaaaaaaaaaaaaaaaaaaaaaa".data).isNone = true :=
  ⟨by decide, by decide, by decide, by decide⟩

/-- Amended claim C9: `validate_api_key` accepts a credential iff its
whitespace-stripped form reaches the 30-character floor, starts with
`AIza`, and consists only of letters, digits, hyphen and underscore — the
three rejection conditions of the claim hold for the stripped credential;
in particular a 10-character string is rejected and a 35-character
`AIza`-prefixed string over the allowed characters passes. -/
theorem claimC9_api_key_stripped :
    (∀ k : String, Validator.validate_api_key k = true ↔
      (AppConfig.MIN_API_KEY_LENGTH ≤ (pyStrip k.data).length ∧
       (pyStrip k.data).take 4 = "AIza".data ∧
       ∀ c ∈ pyStrip k.data, isApiKeyChar c = true)) ∧
    Validator.validate_api_key "AIzaabcdef" = false ∧
    Validator.validate_api_key "AIzaSyA1234567890-_abcdefghijklmnop" = true := by
  refine ⟨?_, by decide, by decide⟩
  intro k
  by_cases hk : k = ""
  · subst hk
    simp [Validator.validate_api_key, pyStrip, AppConfig.MIN_API_KEY_LENGTH]
  · have hk' : (k == "") = false := by simpa using hk
    rw [Validator.validate_api_key, hk']
    simp only [Bool.false_eq_true, if_false]
    by_cases h1 : (pyStrip k.data).length < AppConfig.MIN_API_KEY_LENGTH
    · simp only [h1, if_true]
      constructor
      · intro hfalse; cases hfalse
      · rintro ⟨hge, -, -⟩; omega
    · rw [if_neg h1]
      by_cases h2 : (dropPre "AIza".data (pyStrip k.data)).isNone
      · rw [if_pos h2]
        have htake : ¬((pyStrip k.data).take 4 = "AIza".data) := by
          intro htk
          have : (dropPre "AIza".data (pyStrip k.data)).isSome = true := by
            rw [dropPre_isSome_iff]
            simpa using htk
          rw [Option.isSome_iff_ne_none] at this
          rw [Option.isNone_iff_eq_none] at h2
          exact this h2
        constructor
        · intro hfalse; cases hfalse
        · rintro ⟨-, htk, -⟩; exact absurd htk htake
      · rw [if_neg h2]
        have htake : (pyStrip k.data).take 4 = "AIza".data := by
          have hsome : (dropPre "AIza".data (pyStrip k.data)).isSome = true := by
            cases ho : dropPre "AIza".data (pyStrip k.data) with
            | none => rw [ho] at h2; simp at h2
            | some r => simp
          have := dropPre_isSome_iff.mp hsome
          simpa using this
        by_cases h3 : (pyStrip k.data).all isApiKeyChar
        · rw [if_neg (by simp [h3])]
          simp only [true_iff]
          refine ⟨by omega, htake, ?_⟩
          intro c hc
          exact List.all_eq_true.mp h3 c hc
        · rw [if_pos (by simpa using h3)]
          constructor
          · intro hfalse; cases hfalse
          · rintro ⟨-, -, hall⟩
            exact absurd (List.all_eq_true.mpr fun c hc => hall c hc) h3

/-- Witness for amended claim C9: a 32-character key accepted through the
amended acceptance condition. -/
theorem claimC9_api_key_stripped_witness :
    Validator.validate_api_key "AIza-0000000000111111111122222222" = true :=
  (claimC9_api_key_stripped.1 "AIza-0000000000111111111122222222").mpr
    ⟨by decide, by decide, by decide⟩

end ModernTTS

